import Mathlib

/-!
Verification development for the browser-side map dashboard
(`static/js/app.js`).  The file embeds the item placement and
expiry-coloring engine in Lean: JavaScript numbers are modelled as an
inductive type over exact rationals extended with `NaN` and the two
infinities, the relevant JS builtins (`split`, `trim`, `parseFloat`,
the `Date` constructor) are modelled as executable functions, and the
app's own functions (`parseCSV`, `getTimeLeft`, `getColorFromTime`,
the per-item placement of `renderItems`, `handleSupplyRequest`) are
translated directly from the source.
-/

/-- Model of a JavaScript number: an exact rational, `NaN`, or one of
the two infinities.  Finite values are exact rationals rather than
IEEE-754 doubles; none of the verified properties depend on rounding,
and negative zero is not modelled. -/
inductive JSNum where
  | nan
  | posInf
  | negInf
  | finite (q : ℚ)
deriving DecidableEq, Repr

/-- JS strict equality `===` restricted to numbers: `NaN` is not equal
to anything (itself included); otherwise structural equality. -/
def jsEqNum : JSNum → JSNum → Bool
  | JSNum.nan, _ => false
  | _, JSNum.nan => false
  | a, b => decide (a = b)

/-- JS `<` on numbers: any comparison with `NaN` is `false`. -/
def jsLt : JSNum → JSNum → Bool
  | JSNum.nan, _ => false
  | _, JSNum.nan => false
  | JSNum.posInf, _ => false
  | _, JSNum.posInf => true
  | JSNum.negInf, JSNum.negInf => false
  | JSNum.negInf, JSNum.finite _ => true
  | JSNum.finite _, JSNum.negInf => false
  | JSNum.finite a, JSNum.finite b => decide (a < b)

/-- JS `<=` on numbers: any comparison with `NaN` is `false`. -/
def jsLe : JSNum → JSNum → Bool
  | JSNum.nan, _ => false
  | _, JSNum.nan => false
  | JSNum.posInf, JSNum.posInf => true
  | JSNum.posInf, _ => false
  | _, JSNum.posInf => true
  | JSNum.negInf, _ => true
  | JSNum.finite _, JSNum.negInf => false
  | JSNum.finite a, JSNum.finite b => decide (a ≤ b)

/-- JS subtraction: `NaN` propagates, `Infinity - Infinity` is `NaN`. -/
def jsSub : JSNum → JSNum → JSNum
  | JSNum.nan, _ => JSNum.nan
  | _, JSNum.nan => JSNum.nan
  | JSNum.posInf, JSNum.posInf => JSNum.nan
  | JSNum.negInf, JSNum.negInf => JSNum.nan
  | JSNum.posInf, _ => JSNum.posInf
  | JSNum.negInf, _ => JSNum.negInf
  | JSNum.finite _, JSNum.posInf => JSNum.negInf
  | JSNum.finite _, JSNum.negInf => JSNum.posInf
  | JSNum.finite a, JSNum.finite b => JSNum.finite (a - b)

/-- JS multiplication: `NaN` propagates, `0 * Infinity` is `NaN`. -/
def jsMul : JSNum → JSNum → JSNum
  | JSNum.nan, _ => JSNum.nan
  | _, JSNum.nan => JSNum.nan
  | JSNum.posInf, JSNum.posInf => JSNum.posInf
  | JSNum.posInf, JSNum.negInf => JSNum.negInf
  | JSNum.negInf, JSNum.posInf => JSNum.negInf
  | JSNum.negInf, JSNum.negInf => JSNum.posInf
  | JSNum.posInf, JSNum.finite b =>
      if b = 0 then JSNum.nan else if 0 < b then JSNum.posInf else JSNum.negInf
  | JSNum.finite a, JSNum.posInf =>
      if a = 0 then JSNum.nan else if 0 < a then JSNum.posInf else JSNum.negInf
  | JSNum.negInf, JSNum.finite b =>
      if b = 0 then JSNum.nan else if 0 < b then JSNum.negInf else JSNum.posInf
  | JSNum.finite a, JSNum.negInf =>
      if a = 0 then JSNum.nan else if 0 < a then JSNum.negInf else JSNum.posInf
  | JSNum.finite a, JSNum.finite b => JSNum.finite (a * b)

/-- JS division: `NaN` propagates, `x / 0` is a signed infinity for
`x ≠ 0` and `NaN` for `0 / 0` (negative zero is not modelled; in the
app every divisor is a positive constant). -/
def jsDiv : JSNum → JSNum → JSNum
  | JSNum.nan, _ => JSNum.nan
  | _, JSNum.nan => JSNum.nan
  | JSNum.posInf, JSNum.posInf => JSNum.nan
  | JSNum.posInf, JSNum.negInf => JSNum.nan
  | JSNum.negInf, JSNum.posInf => JSNum.nan
  | JSNum.negInf, JSNum.negInf => JSNum.nan
  | JSNum.posInf, JSNum.finite b => if b < 0 then JSNum.negInf else JSNum.posInf
  | JSNum.negInf, JSNum.finite b => if b < 0 then JSNum.posInf else JSNum.negInf
  | JSNum.finite _, JSNum.posInf => JSNum.finite 0
  | JSNum.finite _, JSNum.negInf => JSNum.finite 0
  | JSNum.finite a, JSNum.finite b =>
      if b = 0 then
        if a = 0 then JSNum.nan else if 0 < a then JSNum.posInf else JSNum.negInf
      else JSNum.finite (a / b)

/-- `Math.floor`: identity on `NaN` and the infinities, floor on
finite values. -/
def jsFloor : JSNum → JSNum
  | JSNum.nan => JSNum.nan
  | JSNum.posInf => JSNum.posInf
  | JSNum.negInf => JSNum.negInf
  | JSNum.finite q => JSNum.finite ((⌊q⌋ : ℤ) : ℚ)

/-- Stringification of a JS number as used by template literals.  The
app only ever stringifies `Math.floor` results, so only integral
values, `NaN` and the infinities need to render exactly as in JS. -/
def jsNumToString : JSNum → String
  | JSNum.nan => "NaN"
  | JSNum.posInf => "Infinity"
  | JSNum.negInf => "-Infinity"
  | JSNum.finite q => if q.den = 1 then toString q.num else toString q

/-- Whitespace characters recognised by the modelled `trim` /
`parseFloat` (the ASCII subset actually occurring in the app's data). -/
def isWS (c : Char) : Bool :=
  c = ' ' ∨ c = '\t' ∨ c = '\n' ∨ c = '\r'

/-- Model of `String.prototype.split` with a single-character
separator, on character lists.  As in JS, the result is never empty
and splitting the empty string yields `[""]`. -/
def splitChar (sep : Char) : List Char → List (List Char)
  | [] => [[]]
  | c :: cs =>
    if c = sep then [] :: splitChar sep cs
    else
      match splitChar sep cs with
      | [] => [[c]]
      | r :: rs => (c :: r) :: rs

/-- `String.prototype.split` with a one-character separator. -/
def jsSplit (sep : Char) (s : String) : List String :=
  (splitChar sep s.data).map (fun cs => String.mk cs)

/-- Characters of a trimmed string: leading and trailing whitespace
removed. -/
def trimChars (cs : List Char) : List Char :=
  ((cs.dropWhile isWS).reverse.dropWhile isWS).reverse

/-- Model of `String.prototype.trim`. -/
def jsTrim (s : String) : String :=
  String.mk (trimChars s.data)

/-- Numeric value of a list of decimal digits. -/
def digitsToNat (cs : List Char) : Nat :=
  cs.foldl (fun acc c => acc * 10 + (c.toNat - 48)) 0

/-- Model of the JS `parseFloat` builtin on the grammar the app's data
uses: optional leading whitespace, optional sign, decimal digits with
an optional fractional part; any trailing garbage is ignored.  If no
digit is consumed the result is `NaN`.  Exponent notation and the
literal `Infinity` are not modelled. -/
def jsParseFloat (s : String) : JSNum :=
  let cs := s.data.dropWhile isWS
  let signAndRest : ℚ × List Char :=
    match cs with
    | c :: rest =>
      if c = '-' then (-1, rest) else if c = '+' then (1, rest) else (1, cs)
    | [] => (1, [])
  let intPart := signAndRest.2.takeWhile Char.isDigit
  let rest1 := signAndRest.2.dropWhile Char.isDigit
  let fracPart :=
    match rest1 with
    | '.' :: r => r.takeWhile Char.isDigit
    | _ => []
  if intPart = [] ∧ fracPart = [] then JSNum.nan
  else
    JSNum.finite (signAndRest.1 *
      ((digitsToNat intPart : ℚ) + (digitsToNat fracPart : ℚ) / (10 : ℚ) ^ fracPart.length))

/-- `parseFloat` applied to a possibly-undefined value: in JS,
`parseFloat(undefined)` coerces the argument to the string
`"undefined"` and returns `NaN`. -/
def jsParseFloatOpt : Option String → JSNum
  | none => JSNum.nan
  | some s => jsParseFloat s

/-- Days from the civil epoch 1970-01-01 for a proleptic Gregorian
date (Howard Hinnant's `days_from_civil`, written for truncating
integer division). -/
def daysFromCivil (y m d : Int) : Int :=
  let yAdj := if m ≤ 2 then y - 1 else y
  let era := (if 0 ≤ yAdj then yAdj else yAdj - 399) / 400
  let yoe := yAdj - era * 400
  let mp := (m + 9) % 12
  let doy := (153 * mp + 2) / 5 + d - 1
  let doe := yoe * 365 + yoe / 4 - yoe / 100 + doy
  era * 146097 + doe - 719468

/-- Parse an `n`-digit decimal field. -/
def parseFixedNat (n : Nat) (s : String) : Option Nat :=
  if s.data.length = n ∧ s.data.all (fun c => c.isDigit) then some (digitsToNat s.data)
  else none

/-- Parse the `YYYY-MM-DD` date part of an ISO-8601 string, as days
since 1970-01-01. -/
def parseDatePart (s : String) : Option Int :=
  match jsSplit '-' s with
  | [ys, ms, ds] =>
    match parseFixedNat 4 ys, parseFixedNat 2 ms, parseFixedNat 2 ds with
    | some y, some m, some d =>
      if 1 ≤ m ∧ m ≤ 12 ∧ 1 ≤ d ∧ d ≤ 31 then some (daysFromCivil y m d) else none
    | _, _, _ => none
  | _ => none

/-- Drop a trailing `Z` time-zone designator. -/
def stripZ (s : String) : String :=
  if s.data.getLast? = some 'Z' then String.mk s.data.dropLast else s

/-- Parse the `HH:MM` or `HH:MM:SS` time part of an ISO-8601 string
(optionally suffixed with `Z`), as milliseconds within the day. -/
def parseTimePart (s : String) : Option Nat :=
  match jsSplit ':' (stripZ s) with
  | [hs, ms] =>
    match parseFixedNat 2 hs, parseFixedNat 2 ms with
    | some hh, some mm =>
      if hh ≤ 23 ∧ mm ≤ 59 then some ((hh * 3600 + mm * 60) * 1000) else none
    | _, _ => none
  | [hs, ms, ss] =>
    match parseFixedNat 2 hs, parseFixedNat 2 ms, parseFixedNat 2 ss with
    | some hh, some mm, some sec =>
      if hh ≤ 23 ∧ mm ≤ 59 ∧ sec ≤ 59 then some ((hh * 3600 + mm * 60 + sec) * 1000)
      else none
    | _, _, _ => none
  | _ => none

/-- Epoch milliseconds of an ISO-8601 datetime string, or `none` when
the string does not parse. -/
def dateMs (s : String) : Option Int :=
  match jsSplit 'T' s with
  | [d] => (parseDatePart d).map (fun days => days * 86400000)
  | [d, t] =>
    match parseDatePart d, parseTimePart t with
    | some days, some msOfDay => some (days * 86400000 + msOfDay)
    | _, _ => none
  | _ => none

/-- Model of the JS `Date` constructor restricted to the ISO-8601
subset the app's `Expiry_Date` column uses (`YYYY-MM-DD`, optionally
followed by `THH:MM[:SS][Z]`, interpreted as UTC).  Any other string
yields an invalid date, i.e. `NaN`, matching `new Date` on
unparseable input. -/
def jsDateParse (s : String) : JSNum :=
  match dateMs s with
  | some n => JSNum.finite (n : ℚ)
  | none => JSNum.nan

/-- The record returned by `getTimeLeft`. -/
structure TimeInfo where
  text : String
  hoursLeft : JSNum
deriving DecidableEq, Repr

/-- `getTimeLeft` from `app.js`.  The argument `expiry` is the value
of `item.Expiry_Date` (`none` for an absent property); `now` is the
epoch-millisecond value of `new Date()`, passed explicitly.  A string
is falsy in JS exactly when it is empty, so the guard
`expiry === "N/A" || !expiry` becomes the first two cases. -/
def getTimeLeft (expiry : Option String) (now : ℚ) : TimeInfo :=
  match expiry with
  | none => ⟨"No Expiry", JSNum.posInf⟩
  | some e =>
    if e = "N/A" ∨ e = "" then ⟨"No Expiry", JSNum.posInf⟩
    else
      let expiryDate := jsDateParse e
      let diffMs := jsSub expiryDate (JSNum.finite now)
      let diffHours := jsDiv diffMs (JSNum.finite (1000 * 60 * 60))
      if jsLt diffHours (JSNum.finite 0) then ⟨"Expired", JSNum.finite 0⟩
      else ⟨"Expires in " ++ jsNumToString (jsFloor diffHours) ++ " hours", diffHours⟩

/-- `getColorFromTime` from `app.js`. -/
def getColorFromTime (hoursLeft : JSNum) : String :=
  if jsEqNum hoursLeft JSNum.posInf then "#3498db"
  else if jsLe hoursLeft (JSNum.finite 0) then "#7f8c8d"
  else if jsLt hoursLeft (JSNum.finite 24) then "#e74c3c"
  else if jsLt hoursLeft (JSNum.finite 72) then "#f1c40f"
  else "#2ecc71"

/-- The five color tokens `getColorFromTime` can return. -/
def colorTokens : List String :=
  ["#3498db", "#7f8c8d", "#e74c3c", "#f1c40f", "#2ecc71"]

/-- A parsed CSV record: a JS object modelled as an insertion-ordered
association list from property name to value, where the value `none`
models a property set to `undefined`. -/
abbrev CSVObj := List (String × Option String)

/-- JS property assignment `obj[k] = v`: update in place if the key
exists, otherwise append (insertion order is preserved). -/
def objSet (obj : CSVObj) (k : String) (v : Option String) : CSVObj :=
  if obj.any (fun p => p.1 == k) then
    obj.map (fun p => if p.1 == k then (k, v) else p)
  else obj ++ [(k, v)]

/-- JS property read `obj[k]`: `none` both for an absent property and
for one stored as `undefined`. -/
def getProp (obj : CSVObj) (k : String) : Option String :=
  match obj.find? (fun p => p.1 == k) with
  | none => none
  | some p => p.2

/-- `parseCSV` from `app.js`: trim the whole text, split into lines,
take the trimmed first line as headers, and turn every further line
into an object assigning `obj[header] = row[index]` positionally
(`row[index]` is `undefined`, i.e. `none`, past the end of the row). -/
def parseCSV (text : String) : List CSVObj :=
  let lines := jsSplit '\n' (jsTrim text)
  let headers := (jsSplit ',' (lines.headD "")).map jsTrim
  (lines.drop 1).map (fun line =>
    let row := (jsSplit ',' line).map jsTrim
    headers.enum.foldl (fun obj p => objSet obj p.2 row[p.1]?) [])

/-- The style and expiry data `renderItems` computes for one item
div. -/
structure Placement where
  width : JSNum
  height : JSNum
  leftPos : JSNum
  topPos : JSNum
  color : String
  timeText : String
deriving DecidableEq, Repr

/-- The per-item body of the `renderItems` loop in `app.js`:
coordinates are split on `','` and the two parts `parseFloat`ed,
width/height come from the `length`/`breadth` properties, and the
positions center the box on the percentage point.  A missing
`centre_coordinates` property makes `item.centre_coordinates.split`
throw a `TypeError` in JS; that is modelled as `none`. -/
def placeItem (item : CSVObj) (containerWidth containerHeight now : ℚ) : Option Placement :=
  match getProp item "centre_coordinates" with
  | none => none
  | some centreStr =>
    let coordinates := jsSplit ',' centreStr
    let leftPercent := jsParseFloatOpt coordinates[0]?
    let topPercent := jsParseFloatOpt coordinates[1]?
    let width := jsParseFloatOpt (getProp item "length")
    let height := jsParseFloatOpt (getProp item "breadth")
    let leftPos := jsSub (jsMul (jsDiv leftPercent (JSNum.finite 100)) (JSNum.finite containerWidth))
      (jsDiv width (JSNum.finite 2))
    let topPos := jsSub (jsMul (jsDiv topPercent (JSNum.finite 100)) (JSNum.finite containerHeight))
      (jsDiv height (JSNum.finite 2))
    let timeInfo := getTimeLeft (getProp item "Expiry_Date") now
    some ⟨width, height, leftPos, topPos, getColorFromTime timeInfo.hoursLeft, timeInfo.text⟩

/-- `renderItems` from `app.js`: one placement per item, in order.
The `forEach` loop appends a div for every item unconditionally; an
exception thrown inside the loop (only possible when
`centre_coordinates` is absent) aborts the render, modelled by the
`Option` monad. -/
def renderItems (items : List CSVObj) (containerWidth containerHeight now : ℚ) :
    Option (List Placement) :=
  items.mapM (fun item => placeItem item containerWidth containerHeight now)

/-- The externally visible outcome of `handleSupplyRequest`: which
alert (if any) is raised before the network call, and the `item_type`
value of the JSON payload when a POST is issued.  The alerts raised
after the response arrives are outside the model. -/
structure SupplyOutcome where
  alertMsg : Option String
  posted : Option String
deriving DecidableEq, Repr

/-- The submit handler `handleSupplyRequest` from `app.js`: a blank
(empty or all-whitespace) item type is rejected with an alert and no
request; otherwise the POST is issued with the raw input as
`item_type`. -/
def handleSupplyRequest (itemType : String) : SupplyOutcome :=
  if jsTrim itemType = "" then
    ⟨some "Please enter an item type for the supply request.", none⟩
  else ⟨none, some itemType⟩

/-- Join lines with the newline character: the shape "a header line
and N data lines, newline-delimited". -/
def intercalateChar (sep : Char) : List (List Char) → List Char
  | [] => []
  | [l] => l
  | l :: ls => l ++ sep :: intercalateChar sep ls

/-- Build a text from its list of lines. -/
def joinLines (lines : List String) : String :=
  String.mk (intercalateChar '\n' (lines.map String.data))

/-! ### Basic reduction lemmas for the JS number operations -/

theorem jsEqNum_finite_posInf (q : ℚ) :
    jsEqNum (JSNum.finite q) JSNum.posInf = false := rfl

theorem jsLe_finite (a b : ℚ) :
    jsLe (JSNum.finite a) (JSNum.finite b) = decide (a ≤ b) := rfl

theorem jsLt_finite (a b : ℚ) :
    jsLt (JSNum.finite a) (JSNum.finite b) = decide (a < b) := rfl

theorem jsSub_finite (a b : ℚ) :
    jsSub (JSNum.finite a) (JSNum.finite b) = JSNum.finite (a - b) := rfl

theorem jsDiv_finite (a b : ℚ) (hb : b ≠ 0) :
    jsDiv (JSNum.finite a) (JSNum.finite b) = JSNum.finite (a / b) := by
  simp [jsDiv, hb]

theorem getColorFromTime_finite (q : ℚ) :
    getColorFromTime (JSNum.finite q) =
      if q ≤ 0 then "#7f8c8d"
      else if q < 24 then "#e74c3c"
      else if q < 72 then "#f1c40f"
      else "#2ecc71" := by
  simp only [getColorFromTime, jsEqNum_finite_posInf, jsLe_finite, jsLt_finite,
    Bool.false_eq_true, if_false, decide_eq_true_eq]

/-- C1: for every input (any real number or `+Infinity`),
`getColorFromTime` returns exactly one of the five defined tokens and
matches the spec table: `+Infinity` is blue, `hoursLeft ≤ 0` grey,
`0 < hoursLeft < 24` red, `24 ≤ hoursLeft < 72` yellow and
`hoursLeft ≥ 72` green; in particular exactly 24 is yellow and
exactly 72 is green. -/
theorem getColorFromTime_table :
    getColorFromTime JSNum.posInf = "#3498db" ∧
    ∀ q : ℚ,
      getColorFromTime (JSNum.finite q) ∈ colorTokens ∧
      (q ≤ 0 → getColorFromTime (JSNum.finite q) = "#7f8c8d") ∧
      (0 < q → q < 24 → getColorFromTime (JSNum.finite q) = "#e74c3c") ∧
      (24 ≤ q → q < 72 → getColorFromTime (JSNum.finite q) = "#f1c40f") ∧
      (72 ≤ q → getColorFromTime (JSNum.finite q) = "#2ecc71") := by
  refine ⟨rfl, fun q => ?_⟩
  rw [getColorFromTime_finite]
  refine ⟨?_, ?_, ?_, ?_, ?_⟩
  · split_ifs <;> simp [colorTokens]
  · intro h; rw [if_pos h]
  · intro h1 h2; rw [if_neg (by linarith), if_pos h2]
  · intro h1 h2; rw [if_neg (by linarith), if_neg (by linarith), if_pos h2]
  · intro h; rw [if_neg (by linarith), if_neg (by linarith), if_neg (by linarith)]

/-- Witness for C1 at the boundary inputs 24 and 72. -/
theorem getColorFromTime_table_witness :
    getColorFromTime (JSNum.finite 24) = "#f1c40f" ∧
    getColorFromTime (JSNum.finite 72) = "#2ecc71" :=
  ⟨(getColorFromTime_table.2 24).2.2.2.1 (by norm_num) (by norm_num),
   (getColorFromTime_table.2 72).2.2.2.2 (by norm_num)⟩

/-- C3: for every instant `now`, `getTimeLeft` applied to an absent
value, the empty string, or the exact string `"N/A"` returns
`{ text := "No Expiry", hoursLeft := +Infinity }`. -/
theorem getTimeLeft_noExpiry (now : ℚ) :
    getTimeLeft none now = ⟨"No Expiry", JSNum.posInf⟩ ∧
    getTimeLeft (some "") now = ⟨"No Expiry", JSNum.posInf⟩ ∧
    getTimeLeft (some "N/A") now = ⟨"No Expiry", JSNum.posInf⟩ := by
  refine ⟨rfl, ?_, ?_⟩ <;> simp [getTimeLeft]

/-- C2: for every expiry string that parses to a valid datetime `t`
and every instant `now`, `getTimeLeft` computes
`diffHours = (t - now) / 3600000`; a negative `diffHours` yields
`{ text := "Expired", hoursLeft := 0 }` and a nonnegative one yields
`{ text := "Expires in " ++ ⌊diffHours⌋ ++ " hours",
   hoursLeft := diffHours }`. -/
theorem getTimeLeft_parsed (e : String) (t now : ℚ)
    (hp : jsDateParse e = JSNum.finite t) :
    ((t - now) / 3600000 < 0 →
        getTimeLeft (some e) now = ⟨"Expired", JSNum.finite 0⟩) ∧
    (0 ≤ (t - now) / 3600000 →
        getTimeLeft (some e) now =
          ⟨"Expires in " ++ toString ⌊(t - now) / 3600000⌋ ++ " hours",
           JSNum.finite ((t - now) / 3600000)⟩) := by
  have hna : e ≠ "N/A" := by
    rintro rfl
    rw [show jsDateParse "N/A" = JSNum.nan from rfl] at hp
    exact JSNum.noConfusion hp
  have hne : e ≠ "" := by
    rintro rfl
    rw [show jsDateParse "" = JSNum.nan from rfl] at hp
    exact JSNum.noConfusion hp
  simp only [getTimeLeft]
  rw [if_neg (by tauto)]
  simp only [hp, jsSub_finite]
  rw [show ((1000 * 60 * 60 : ℚ)) = 3600000 by norm_num,
    jsDiv_finite _ _ (by norm_num), jsLt_finite]
  constructor
  · intro h
    rw [if_pos (by simpa using h)]
  · intro h
    rw [if_neg (by simpa using not_lt.mpr h)]
    have hfloor : jsNumToString (jsFloor (JSNum.finite ((t - now) / 3600000))) =
        toString ⌊(t - now) / 3600000⌋ := by
      simp only [jsFloor, jsNumToString]
      rw [if_pos (Rat.den_intCast _), Rat.num_intCast]
    rw [hfloor]

/-- Witness for C2: a datetime 50 hours after `now` yields
`hoursLeft = 50` and the text `"Expires in 50 hours"`; a datetime one
hour before `now` yields `hoursLeft = 0` and `"Expired"`. -/
theorem getTimeLeft_parsed_witness :
    getTimeLeft (some "2026-10-13T12:00:00Z") 1791712800000 =
      ⟨"Expires in 50 hours", JSNum.finite 50⟩ ∧
    getTimeLeft (some "2026-10-13T12:00:00Z") 1791896400000 =
      ⟨"Expired", JSNum.finite 0⟩ := by
  constructor
  · have h := (getTimeLeft_parsed "2026-10-13T12:00:00Z" 1791892800000 1791712800000
      (by decide)).2 (by norm_num)
    rw [h, show ((1791892800000 : ℚ) - 1791712800000) / 3600000 = 50 by norm_num,
      show (50 : ℚ) = ((50 : ℤ) : ℚ) by norm_num, Int.floor_intCast]
    decide
  · exact (getTimeLeft_parsed "2026-10-13T12:00:00Z" 1791892800000 1791896400000
      (by decide)).1 (by norm_num)

/-- C9: a supply-request submission whose item-type input is empty or
all whitespace raises a user-facing alert and never issues the POST;
any non-blank input issues the POST. -/
theorem handleSupplyRequest_guard (itemType : String) :
    (jsTrim itemType = "" →
      handleSupplyRequest itemType =
        ⟨some "Please enter an item type for the supply request.", none⟩) ∧
    (jsTrim itemType ≠ "" →
      handleSupplyRequest itemType = ⟨none, some itemType⟩) := by
  constructor <;> intro h <;> simp [handleSupplyRequest, h]

/-- Witness for C9 at a whitespace-only and a non-blank input. -/
theorem handleSupplyRequest_guard_witness :
    handleSupplyRequest "   " =
      ⟨some "Please enter an item type for the supply request.", none⟩ ∧
    handleSupplyRequest "water" = ⟨none, some "water"⟩ :=
  ⟨(handleSupplyRequest_guard "   ").1 (by decide),
   (handleSupplyRequest_guard "water").2 (by decide)⟩

/-- C10: a non-empty expiry string other than `"N/A"` that does not
parse as a datetime yields
`{ text := "Expires in NaN hours", hoursLeft := NaN }`, and the color
mapping sends `NaN` to green. -/
theorem getTimeLeft_invalid (e : String) (now : ℚ)
    (hne : e ≠ "") (hna : e ≠ "N/A") (hp : jsDateParse e = JSNum.nan) :
    getTimeLeft (some e) now = ⟨"Expires in NaN hours", JSNum.nan⟩ ∧
    getColorFromTime JSNum.nan = "#2ecc71" := by
  refine ⟨?_, rfl⟩
  simp only [getTimeLeft]
  rw [if_neg (by tauto)]
  simp only [hp]
  rfl

/-- Witness for C10 at the unparseable string `"not-a-date"`. -/
theorem getTimeLeft_invalid_witness :
    getTimeLeft (some "not-a-date") 0 = ⟨"Expires in NaN hours", JSNum.nan⟩ ∧
    getColorFromTime JSNum.nan = "#2ecc71" :=
  getTimeLeft_invalid "not-a-date" 0 (by decide) (by decide) (by decide)

theorem jsDiv_nan_left (x : JSNum) : jsDiv JSNum.nan x = JSNum.nan := by
  cases x <;> rfl

theorem jsMul_nan_left (x : JSNum) : jsMul JSNum.nan x = JSNum.nan := by
  cases x <;> rfl

theorem jsSub_nan_left (x : JSNum) : jsSub JSNum.nan x = JSNum.nan := by
  cases x <;> rfl

/-- C4 counterexample: a record whose `centre_coordinates` value
`"garbage"` has no comma and no digits is still placed — the render
succeeds and produces a placement whose left/top positions are `NaN`,
with no failure signal. -/
theorem renderItems_nan_counterexample :
    renderItems [[("centre_coordinates", some "garbage")]] 400 200 0 =
      some [⟨JSNum.nan, JSNum.nan, JSNum.nan, JSNum.nan, "#3498db", "No Expiry"⟩] := by
  decide

/-- C4 amended: for every item record whose `centre_coordinates`
property is present but unparseable (an unparseable x part makes
`leftPos` `NaN`; a missing or unparseable y part makes `topPos`
`NaN`), the engine does not signal a failure: a placement is still
produced, with the affected position equal to `NaN`. -/
theorem placeItem_unparseable_silent (item : CSVObj) (cw ch now : ℚ) (c : String)
    (hc : getProp item "centre_coordinates" = some c) :
    (placeItem item cw ch now).isSome = true ∧
    (jsParseFloatOpt (jsSplit ',' c)[0]? = JSNum.nan →
      ∀ p, placeItem item cw ch now = some p → p.leftPos = JSNum.nan) ∧
    (jsParseFloatOpt (jsSplit ',' c)[1]? = JSNum.nan →
      ∀ p, placeItem item cw ch now = some p → p.topPos = JSNum.nan) := by
  simp only [placeItem, hc]
  refine ⟨rfl, ?_, ?_⟩
  · intro hx p hp
    obtain rfl := (Option.some.inj hp).symm
    simp only [hx, show jsDiv JSNum.nan (JSNum.finite 100) = JSNum.nan from rfl,
      jsMul_nan_left, jsSub_nan_left]
  · intro hy p hp
    obtain rfl := (Option.some.inj hp).symm
    simp only [hy, show jsDiv JSNum.nan (JSNum.finite 100) = JSNum.nan from rfl,
      jsMul_nan_left, jsSub_nan_left]

/-- Witness for the amended C4 at the coordinate string `"garbage"`. -/
theorem placeItem_unparseable_silent_witness :
    (placeItem [("centre_coordinates", some "garbage")] 400 200 0).isSome = true ∧
    Placement.leftPos
      (⟨JSNum.nan, JSNum.nan, JSNum.nan, JSNum.nan, "#3498db", "No Expiry"⟩ : Placement) =
      JSNum.nan := by
  have h := placeItem_unparseable_silent [("centre_coordinates", some "garbage")]
    400 200 0 "garbage" (by decide)
  exact ⟨h.1, h.2.1 (by decide) _ (by decide)⟩

/-- C5: for every record whose centre coordinates parse to `(x, y)`
and whose length/breadth parse to `(w, h)`, the placement transform
yields `leftPos = x/100 * containerWidth - w/2` and
`topPos = y/100 * containerHeight - h/2`. -/
theorem placeItem_transform (item : CSVObj) (cw ch now : ℚ) (c : String) (x y w h : ℚ)
    (hc : getProp item "centre_coordinates" = some c)
    (hx : jsParseFloatOpt (jsSplit ',' c)[0]? = JSNum.finite x)
    (hy : jsParseFloatOpt (jsSplit ',' c)[1]? = JSNum.finite y)
    (hw : jsParseFloatOpt (getProp item "length") = JSNum.finite w)
    (hh : jsParseFloatOpt (getProp item "breadth") = JSNum.finite h) :
    ∃ p : Placement, placeItem item cw ch now = some p ∧
      p.leftPos = JSNum.finite (x / 100 * cw - w / 2) ∧
      p.topPos = JSNum.finite (y / 100 * ch - h / 2) := by
  simp only [placeItem, hc]
  refine ⟨_, rfl, ?_, ?_⟩
  · simp only [hx, hw]
    rw [jsDiv_finite _ _ (by norm_num), jsDiv_finite _ _ (by norm_num)]
    rfl
  · simp only [hy, hh]
    rw [jsDiv_finite _ _ (by norm_num), jsDiv_finite _ _ (by norm_num)]
    rfl

/-- Witness for C5: coordinates `"50,50"` with size 40×20 in a
400×200 container yield `leftPos = 180` and `topPos = 90`. -/
theorem placeItem_transform_witness :
    (placeItem [("centre_coordinates", some "50,50"), ("length", some "40"),
        ("breadth", some "20")] 400 200 0).map Placement.leftPos =
      some (JSNum.finite 180) ∧
    (placeItem [("centre_coordinates", some "50,50"), ("length", some "40"),
        ("breadth", some "20")] 400 200 0).map Placement.topPos =
      some (JSNum.finite 90) := by
  obtain ⟨p, hp, hl, ht⟩ := placeItem_transform
    [("centre_coordinates", some "50,50"), ("length", some "40"), ("breadth", some "20")]
    400 200 0 "50,50" 50 50 40 20 (by decide)
    (by
      rw [show jsParseFloatOpt (jsSplit ',' "50,50")[0]? =
        JSNum.finite (1 * (((50 : ℕ) : ℚ) + ((0 : ℕ) : ℚ) / 10 ^ (0 : ℕ))) from rfl]
      exact congrArg JSNum.finite (by norm_num))
    (by
      rw [show jsParseFloatOpt (jsSplit ',' "50,50")[1]? =
        JSNum.finite (1 * (((50 : ℕ) : ℚ) + ((0 : ℕ) : ℚ) / 10 ^ (0 : ℕ))) from rfl]
      exact congrArg JSNum.finite (by norm_num))
    (by
      rw [show jsParseFloatOpt (getProp [("centre_coordinates", some "50,50"),
          ("length", some "40"), ("breadth", some "20")] "length") =
        JSNum.finite (1 * (((40 : ℕ) : ℚ) + ((0 : ℕ) : ℚ) / 10 ^ (0 : ℕ))) from rfl]
      exact congrArg JSNum.finite (by norm_num))
    (by
      rw [show jsParseFloatOpt (getProp [("centre_coordinates", some "50,50"),
          ("length", some "40"), ("breadth", some "20")] "breadth") =
        JSNum.finite (1 * (((20 : ℕ) : ℚ) + ((0 : ℕ) : ℚ) / 10 ^ (0 : ℕ))) from rfl]
      exact congrArg JSNum.finite (by norm_num))
  rw [hp]
  constructor
  · simp only [Option.map_some', hl, Option.some.injEq, JSNum.finite.injEq]
    norm_num
  · simp only [Option.map_some', ht, Option.some.injEq, JSNum.finite.injEq]
    norm_num

/-- C8 counterexample: for the fixed expiry string `"soon"` (which
does not parse as a datetime) `hoursLeft` is `NaN` at every instant,
and the JS comparison `NaN <= NaN` is false, so the hoursLeft at a
later instant is not less-or-equal the hoursLeft at an earlier one
even with `now1 ≤ now2` (here `now1 = now2 = 0`). -/
theorem hoursLeft_monotone_counterexample :
    (0 : ℚ) ≤ 0 ∧
    jsLe (getTimeLeft (some "soon") 0).hoursLeft
      (getTimeLeft (some "soon") 0).hoursLeft = false :=
  ⟨le_refl 0, by decide⟩

/-- C8 amended: for every expiry value that is absent, empty, `"N/A"`,
or parses to a valid datetime — i.e. every expiry whose `hoursLeft` is
a number rather than `NaN` — `hoursLeft` is monotonically decreasing
as the instant `now` advances. -/
theorem hoursLeft_antitone (e : Option String) (now1 now2 : ℚ)
    (hok : ∀ s, e = some s → s ≠ "N/A" → s ≠ "" →
      ∃ t : ℚ, jsDateParse s = JSNum.finite t)
    (h12 : now1 ≤ now2) :
    jsLe (getTimeLeft e now2).hoursLeft (getTimeLeft e now1).hoursLeft = true := by
  cases e with
  | none => rfl
  | some s =>
    by_cases hna : s = "N/A" ∨ s = ""
    · simp only [getTimeLeft, if_pos hna]
      rfl
    · push_neg at hna
      obtain ⟨t, ht⟩ := hok s rfl hna.1 hna.2
      have key : ∀ now : ℚ, getTimeLeft (some s) now =
          if (t - now) / 3600000 < 0 then ⟨"Expired", JSNum.finite 0⟩
          else ⟨"Expires in " ++
              jsNumToString (jsFloor (JSNum.finite ((t - now) / 3600000))) ++ " hours",
            JSNum.finite ((t - now) / 3600000)⟩ := by
        intro now
        simp only [getTimeLeft]
        rw [if_neg (by tauto), ht, jsSub_finite,
          show ((1000 * 60 * 60 : ℚ)) = 3600000 by norm_num,
          jsDiv_finite (t - now) 3600000 (by norm_num), jsLt_finite]
        simp only [decide_eq_true_eq]
      rw [key now1, key now2]
      have hle : (t - now2) / 3600000 ≤ (t - now1) / 3600000 :=
        (div_le_div_iff_of_pos_right (by norm_num)).mpr (by linarith)
      split_ifs <;>
        (dsimp only; rw [jsLe_finite]; simp only [decide_eq_true_eq]; linarith)

/-- Witness for the amended C8: a parseable expiry compared at two
instants 51 hours apart. -/
theorem hoursLeft_antitone_witness :
    jsLe (getTimeLeft (some "2026-10-13T12:00:00Z") 1791896400000).hoursLeft
      (getTimeLeft (some "2026-10-13T12:00:00Z") 1791712800000).hoursLeft = true :=
  hoursLeft_antitone (some "2026-10-13T12:00:00Z") 1791712800000 1791896400000
    (fun s hs _ _ => Option.some.inj hs ▸ ⟨1791892800000, by decide⟩) (by norm_num)

/-! ### Split / join / trim lemmas for the CSV parser -/

theorem splitChar_not_mem (sep : Char) (l : List Char) (h : sep ∉ l) :
    splitChar sep l = [l] := by
  induction l with
  | nil => rfl
  | cons c cs ih =>
    have hc : ¬ c = sep := fun hcs => h (hcs ▸ List.mem_cons_self c cs)
    have hcs : sep ∉ cs := fun hm => h (List.mem_cons_of_mem c hm)
    simp only [splitChar, if_neg hc, ih hcs]

theorem splitChar_append (sep : Char) (l rest : List Char) (h : sep ∉ l) :
    splitChar sep (l ++ sep :: rest) = l :: splitChar sep rest := by
  induction l with
  | nil => simp [splitChar]
  | cons c cs ih =>
    have hc : ¬ c = sep := fun hcs => h (hcs ▸ List.mem_cons_self c cs)
    have hcs : sep ∉ cs := fun hm => h (List.mem_cons_of_mem c hm)
    rw [List.cons_append]
    simp only [splitChar, if_neg hc, ih hcs]

theorem splitChar_intercalate (sep : Char) (ls : List (List Char)) (hne : ls ≠ [])
    (h : ∀ l ∈ ls, sep ∉ l) :
    splitChar sep (intercalateChar sep ls) = ls := by
  induction ls with
  | nil => exact absurd rfl hne
  | cons l ls ih =>
    cases ls with
    | nil =>
      simpa [intercalateChar] using splitChar_not_mem sep l (h l (List.mem_cons_self l []))
    | cons l2 ls2 =>
      rw [show intercalateChar sep (l :: l2 :: ls2) =
          l ++ sep :: intercalateChar sep (l2 :: ls2) from rfl,
        splitChar_append sep l _ (h l (List.mem_cons_self l _)),
        ih (by simp) (fun x hx => h x (List.mem_cons_of_mem _ hx))]

theorem jsSplit_joinLines (lines : List String) (hne : lines ≠ [])
    (h : ∀ l ∈ lines, '\n' ∉ l.data) :
    jsSplit '\n' (joinLines lines) = lines := by
  unfold jsSplit joinLines
  rw [show (String.mk (intercalateChar '\n' (lines.map String.data))).data =
      intercalateChar '\n' (lines.map String.data) from rfl,
    splitChar_intercalate '\n' _ (by simpa using hne)
      (by
        intro l hl
        obtain ⟨s, hs, rfl⟩ := List.mem_map.mp hl
        exact h s hs),
    List.map_map]
  exact List.map_id'' (fun s => rfl) lines

theorem dropWhile_reverse_newline (l : List Char) :
    (l ++ ['\n']).reverse.dropWhile isWS = l.reverse.dropWhile isWS := by
  rw [List.reverse_append, show (['\n'] : List Char).reverse = ['\n'] from rfl,
    List.cons_append, List.nil_append, List.dropWhile_cons]
  rw [if_pos (show isWS '\n' = true from rfl)]

theorem trimChars_append_newline (cs : List Char) :
    trimChars (cs ++ ['\n']) = trimChars cs := by
  unfold trimChars
  rcases h : cs.dropWhile isWS with _ | ⟨c, rest⟩
  · have h2 : (cs ++ ['\n']).dropWhile isWS = [] := by
      rw [List.dropWhile_append, h]
      rfl
    rw [h2]
  · rw [List.dropWhile_append, h]
    simp only [List.isEmpty_cons, Bool.false_eq_true, if_false]
    rw [dropWhile_reverse_newline (c :: rest)]

theorem jsTrim_append_newline (s : String) : jsTrim (s ++ "\n") = jsTrim s := by
  unfold jsTrim
  rw [show (s ++ "\n").data = s.data ++ ['\n'] from rfl, trimChars_append_newline]

theorem objSet_not_mem (obj : CSVObj) (k : String) (v : Option String)
    (h : obj.any (fun p => p.1 == k) = false) :
    objSet obj k v = obj ++ [(k, v)] := by
  unfold objSet
  rw [if_neg (by simp [h])]

theorem foldl_objSet : ∀ (ps : List (ℕ × String)) (row : List String) (obj : CSVObj),
    (ps.map Prod.snd).Nodup →
    (∀ q ∈ ps, obj.any (fun p => p.1 == q.2) = false) →
    ps.foldl (fun o q => objSet o q.2 row[q.1]?) obj =
      obj ++ ps.map (fun q => (q.2, row[q.1]?)) := by
  intro ps row
  induction ps with
  | nil => intro obj _ _; simp
  | cons q ps ih =>
    intro obj hnd hdisj
    have hqnotin : q.2 ∉ ps.map Prod.snd := (List.nodup_cons.mp (by simpa using hnd)).1
    have hnd' : (ps.map Prod.snd).Nodup := (List.nodup_cons.mp (by simpa using hnd)).2
    rw [List.foldl_cons, objSet_not_mem obj q.2 row[q.1]? (hdisj q (List.mem_cons_self q ps)),
      ih (obj ++ [(q.2, row[q.1]?)]) hnd' ?_]
    · simp
    · intro q' hq'
      rw [List.any_append, hdisj q' (List.mem_cons_of_mem q hq')]
      simp only [Bool.false_or, List.any_cons, List.any_nil, Bool.or_false]
      have hne : q.2 ≠ q'.2 := fun hEq => hqnotin (hEq ▸ List.mem_map_of_mem Prod.snd hq')
      simp [hne]

/-- The core contract of `parseCSV`: a text made of a header line and
data lines yields, per data line, the record that assigns to the
`i`-th trimmed header the `i`-th trimmed field of that line (absent
past the end of the row).  `htrim` says the text carries no leading
or trailing whitespace, and `hnd` that headers are distinct. -/
theorem parseCSV_joinLines (header : String) (dataLines : List String)
    (hnl : ∀ l ∈ header :: dataLines, '\n' ∉ l.data)
    (htrim : jsTrim (joinLines (header :: dataLines)) = joinLines (header :: dataLines))
    (hnd : ((jsSplit ',' header).map jsTrim).Nodup) :
    parseCSV (joinLines (header :: dataLines)) =
      dataLines.map (fun line =>
        ((jsSplit ',' header).map jsTrim).enum.map
          (fun p => (p.2, ((jsSplit ',' line).map jsTrim)[p.1]?))) := by
  unfold parseCSV
  rw [htrim, jsSplit_joinLines _ (by simp) hnl]
  simp only [List.headD_cons, List.drop_one, List.tail_cons]
  refine congrArg (fun f => List.map f dataLines) (funext fun line => ?_)
  rw [foldl_objSet ((jsSplit ',' header).map jsTrim).enum ((jsSplit ',' line).map jsTrim) []
    (by rw [List.enum_map_snd]; exact hnd) (fun q hq => rfl)]
  simp

/-- C6: for every CSV text made of a header line and N data lines
(newline-delimited, comma-delimited, no quoting, with distinct
headers), the parser produces an ordered sequence of N records
mapping each trimmed header name to the trimmed string value at the
same position, and appending a trailing blank line never changes the
result (so no phantom extra record arises). -/
theorem parseCSV_spec (header : String) (dataLines : List String)
    (hnl : ∀ l ∈ header :: dataLines, '\n' ∉ l.data)
    (htrim : jsTrim (joinLines (header :: dataLines)) = joinLines (header :: dataLines))
    (hnd : ((jsSplit ',' header).map jsTrim).Nodup) :
    parseCSV (joinLines (header :: dataLines)) =
      dataLines.map (fun line =>
        ((jsSplit ',' header).map jsTrim).enum.map
          (fun p => (p.2, ((jsSplit ',' line).map jsTrim)[p.1]?))) ∧
    (parseCSV (joinLines (header :: dataLines))).length = dataLines.length ∧
    ∀ s : String, parseCSV (s ++ "\n") = parseCSV s := by
  have h := parseCSV_joinLines header dataLines hnl htrim hnd
  refine ⟨h, by rw [h]; simp, fun s => ?_⟩
  unfold parseCSV
  rw [jsTrim_append_newline]

/-- Witness for C6: `"a,b\n1,2\n3,4"` parses to the two expected
records, and a trailing blank line leaves the result unchanged. -/
theorem parseCSV_spec_witness :
    parseCSV "a,b\n1,2\n3,4" =
      [[("a", some "1"), ("b", some "2")], [("a", some "3"), ("b", some "4")]] ∧
    parseCSV "a,b\n1,2\n3,4\n" = parseCSV "a,b\n1,2\n3,4" := by
  have h := parseCSV_spec "a,b" ["1,2", "3,4"] (by decide) (by decide) (by decide)
  constructor
  · have h1 := h.1
    rw [show joinLines ["a,b", "1,2", "3,4"] = "a,b\n1,2\n3,4" from by decide] at h1
    rw [h1]
    decide
  · have h3 := h.2.2 "a,b\n1,2\n3,4"
    rw [show ("a,b\n1,2\n3,4" ++ "\n") = "a,b\n1,2\n3,4\n" from by decide] at h3
    exact h3

/-- C7: a data line with fewer comma-separated fields than there are
headers still parses (the parser is total and raises nothing); the
resulting record maps each missing trailing header (index `i` at or
past the row length) to the absent value `none`. -/
theorem parseCSV_short_row (header line : String) (i : ℕ)
    (hnl : ∀ l ∈ [header, line], '\n' ∉ l.data)
    (htrim : jsTrim (joinLines [header, line]) = joinLines [header, line])
    (hnd : ((jsSplit ',' header).map jsTrim).Nodup)
    (hi : i < ((jsSplit ',' header).map jsTrim).length)
    (hshort : ((jsSplit ',' line).map jsTrim).length ≤ i) :
    parseCSV (joinLines [header, line]) =
      [((jsSplit ',' header).map jsTrim).enum.map
        (fun p => (p.2, ((jsSplit ',' line).map jsTrim)[p.1]?))] ∧
    (((jsSplit ',' header).map jsTrim).enum.map
        (fun p => (p.2, ((jsSplit ',' line).map jsTrim)[p.1]?)))[i]? =
      some (((jsSplit ',' header).map jsTrim).get ⟨i, hi⟩, none) := by
  constructor
  · exact parseCSV_joinLines header [line] hnl htrim hnd
  · rw [List.getElem?_map, List.getElem?_enum, List.getElem?_eq_getElem hi]
    simp only [Option.map_some']
    rw [List.getElem?_eq_none hshort]
    rfl

/-- Witness for C7: parsing `"a,b\n1"` yields a single record with
`a ↦ "1"` and the missing trailing field `b` absent. -/
theorem parseCSV_short_row_witness :
    parseCSV "a,b\n1" = [[("a", some "1"), ("b", none)]] ∧
    ([("a", some "1"), ("b", none)] : CSVObj)[1]? = some ("b", none) := by
  have h := parseCSV_short_row "a,b" "1" 1 (by decide) (by decide) (by decide)
    (by decide) (by decide)
  constructor
  · have h1 := h.1
    rw [show joinLines ["a,b", "1"] = "a,b\n1" from by decide] at h1
    rw [h1]
    decide
  · decide
